import Mathlib

/-!
Shallow embedding of `pickle_cli_bot_module8.py`, a command-line contact
manager (names, 10-digit phone numbers, birthdays in DD.MM.YYYY format,
upcoming-birthday query with weekend adjustment, snapshot persistence).

Python's `datetime.date` is modelled as a year/month/day triple over the
proleptic Gregorian calendar; `date.toordinal`-style day counting gives
weekday arithmetic and day differences.  Fallible Python operations
(`ValueError`) are modelled with `Except String`.
-/

namespace PickleBot

/-- A calendar date, as Python's `datetime.date` (year/month/day). -/
structure Date where
  year : Nat
  month : Nat
  day : Nat
deriving DecidableEq, Repr

/-- Gregorian leap-year rule, as used by `datetime`. -/
def isLeapYear (y : Nat) : Bool :=
  (y % 4 == 0 && y % 100 != 0) || y % 400 == 0

/-- Days in a month of a given year (Gregorian). -/
def daysInMonth (y m : Nat) : Nat :=
  if m = 2 then (if isLeapYear y then 29 else 28)
  else if m = 4 ∨ m = 6 ∨ m = 9 ∨ m = 11 then 30
  else 31

/-- The dates representable by Python's `datetime.date`
(`MINYEAR = 1`, `MAXYEAR = 9999`, day within the month). -/
def ValidDate (d : Date) : Prop :=
  1 ≤ d.year ∧ d.year ≤ 9999 ∧ 1 ≤ d.month ∧ d.month ≤ 12 ∧
    1 ≤ d.day ∧ d.day ≤ daysInMonth d.year d.month

instance (d : Date) : Decidable (ValidDate d) := by
  unfold ValidDate; infer_instance

/-- Days of the year strictly before month `m` of year `y`. -/
def daysBeforeMonth (y m : Nat) : Nat :=
  (List.range m).foldl (fun acc k => acc + if 1 ≤ k then daysInMonth y k else 0) 0

/-- Day count since 0001-01-01 (Python `date.toordinal()` minus one); used
for weekday computation and date subtraction. -/
def toOrdinal (d : Date) : Nat :=
  365 * (d.year - 1) + (d.year - 1) / 4 - (d.year - 1) / 100 + (d.year - 1) / 400
    + daysBeforeMonth d.year d.month + (d.day - 1)

/-- Python `date.weekday()`: Monday = 0 … Sunday = 6. -/
def weekday (d : Date) : Nat := toOrdinal d % 7

/-- The calendar successor of a date. -/
def nextDay (d : Date) : Date :=
  if d.day < daysInMonth d.year d.month then ⟨d.year, d.month, d.day + 1⟩
  else if d.month < 12 then ⟨d.year, d.month + 1, 1⟩
  else ⟨d.year + 1, 1, 1⟩

/-- `d + timedelta(days=n)` for a nonnegative number of days. -/
def addDays : Date → Nat → Date
  | d, 0 => d
  | d, n + 1 => addDays (nextDay d) n

/-- Python date comparison (`<`), lexicographic on (year, month, day). -/
def dateLt (a b : Date) : Bool :=
  if a.year < b.year then true
  else if b.year < a.year then false
  else if a.month < b.month then true
  else if b.month < a.month then false
  else a.day < b.day

/-- `(a - b).days`: signed difference in days between two dates. -/
def dateDiff (a b : Date) : Int :=
  (toOrdinal a : Int) - (toOrdinal b : Int)

/-- Python `date.replace(year=y)`: rebuilds the date with a new year,
re-running the constructor checks; raises `ValueError` (modelled as
`Except.error`) when the year is out of range or the day does not exist in
the target month (e.g. Feb 29 in a non-leap year). -/
def replaceYear (d : Date) (y : Nat) : Except String Date :=
  if y < 1 ∨ 9999 < y then .error ("year " ++ toString y ++ " is out of range")
  else if daysInMonth y d.month < d.day then .error "day is out of range for month"
  else .ok ⟨y, d.month, d.day⟩

/-! ### Digit and string helpers (modelling Python string/regex behaviour) -/

/-- ASCII decimal digit test, used for the digit positions of the
`strptime` date patterns: their explicit alternatives (`3[01]`, `0[1-9]`,
`1[0-2]`, `[1-9]`) are ASCII classes.  The two `\d` spots inside those
patterns also admit other Unicode decimal digits in CPython, but the
zero-padded inputs the round-trip claim ranges over are ASCII; the Unicode
acceptance set itself is modelled by `isDecimalDigit` where it is the
subject (phone validation). -/
def isPyDigit (c : Char) : Bool := '0' ≤ c && c ≤ '9'

/-- Numeric value of an ASCII digit character. -/
def digitVal (c : Char) : Nat := c.toNat - 48

/-- The ASCII digit character for `n < 10`. -/
def digitChar (n : Nat) : Char := Char.ofNat (48 + n)

/-- Fuel-driven digit rendering; the fuel always suffices because a number
has fewer digits than its value plus one. -/
def natDigitsAux : Nat → Nat → List Char
  | 0, _ => []
  | fuel + 1, n =>
    if n < 10 then [digitChar n]
    else natDigitsAux fuel (n / 10) ++ [digitChar (n % 10)]

/-- Decimal rendering of a natural number, no leading zeros — the behaviour
of C `strftime`'s `%Y` on glibc (no zero padding: year 123 prints `123`). -/
def natDigits (n : Nat) : List Char := natDigitsAux (n + 1) n

/-- Two-digit zero-padded rendering (`strftime` `%d` / `%m`). -/
def pad2 (n : Nat) : List Char :=
  if n < 10 then ['0', digitChar n] else natDigits n

/-- `date_to_string` / `strftime("%d.%m.%Y")`: zero-padded day and month,
year without padding (glibc `%Y`). -/
def date_to_string (d : Date) : String :=
  String.mk (pad2 d.day ++ '.' :: pad2 d.month ++ '.' :: natDigits d.year)

/-- `needle` is a prefix of `hay`. -/
def listIsPrefixOf : List Char → List Char → Bool
  | [], _ => true
  | _ :: _, [] => false
  | a :: as, b :: bs => a == b && listIsPrefixOf as bs

/-- Python's substring test `needle in hay`. -/
def listContainsSub (hay needle : List Char) : Bool :=
  if listIsPrefixOf needle hay then true
  else
    match hay with
    | [] => false
    | _ :: t => listContainsSub t needle

/-- Python's `sub in s` on strings. -/
def strContainsSub (hay needle : String) : Bool :=
  listContainsSub hay.data needle.data

/-- Whitespace for Python `str.split()` (space, tab, newline, carriage
return — the ASCII whitespace the program's input can contain). -/
def isPySpace (c : Char) : Bool := c == ' ' || c == '\t' || c == '\n' || c == '\r'

/-- Python `args.split(maxsplit=1)`: skip leading whitespace, take the first
whitespace-free token, skip the separating whitespace run, and return the
remainder verbatim; at most two parts, empty parts never produced. -/
def splitMax1 (s : String) : List String :=
  let cs := s.data.dropWhile isPySpace
  match cs with
  | [] => []
  | _ :: _ =>
    let tok := cs.takeWhile (fun c => !isPySpace c)
    let rest := (cs.dropWhile (fun c => !isPySpace c)).dropWhile isPySpace
    match rest with
    | [] => [String.mk tok]
    | _ :: _ => [String.mk tok, String.mk rest]

/-- Python's `ValueError` message for unpacking too few values into
`name, phone = ...`. -/
def unpack2Msg (n : Nat) : String :=
  "not enough values to unpack (expected 2, got " ++ toString n ++ ")"

/-! ### Field value types -/

/-- The code-point ranges of the characters Python's regex `\d` matches on
a `str` pattern without `re.ASCII` — the Unicode decimal digits (category
Nd; Unicode 14.0, as shipped with the CPython 3.11 `re` module, from which
this table was enumerated). -/
def unicodeDigitRanges : List (Nat × Nat) := [
    (48, 57), (1632, 1641), (1776, 1785), (1984, 1993), (2406, 2415),
    (2534, 2543), (2662, 2671), (2790, 2799), (2918, 2927), (3046, 3055),
    (3174, 3183), (3302, 3311), (3430, 3439), (3558, 3567), (3664, 3673),
    (3792, 3801), (3872, 3881), (4160, 4169), (4240, 4249), (6112, 6121),
    (6160, 6169), (6470, 6479), (6608, 6617), (6784, 6793), (6800, 6809),
    (6992, 7001), (7088, 7097), (7232, 7241), (7248, 7257), (42528, 42537),
    (43216, 43225), (43264, 43273), (43472, 43481), (43504, 43513),
    (43600, 43609), (44016, 44025), (65296, 65305), (66720, 66729),
    (68912, 68921), (69734, 69743), (69872, 69881), (69942, 69951),
    (70096, 70105), (70384, 70393), (70736, 70745), (70864, 70873),
    (71248, 71257), (71360, 71369), (71472, 71481), (71904, 71913),
    (72016, 72025), (72784, 72793), (73040, 73049), (73120, 73129),
    (92768, 92777), (92864, 92873), (93008, 93017), (120782, 120831),
    (123200, 123209), (123632, 123641), (125264, 125273), (130032, 130041)]

/-- Test that `c` is a Unicode decimal digit: what `\d` matches in
`re.match(r'^\d{10}$', number)`. -/
def isDecimalDigit (c : Char) : Bool :=
  unicodeDigitRanges.any (fun r => r.1 ≤ c.toNat && c.toNat ≤ r.2)

/-- Propositional form of `isDecimalDigit`: the claim-side vocabulary for
"decimal digit character". -/
def IsNdDigit (c : Char) : Prop :=
  ∃ r ∈ unicodeDigitRanges, r.1 ≤ c.toNat ∧ c.toNat ≤ r.2

instance (c : Char) : Decidable (IsNdDigit c) := by
  unfold IsNdDigit; infer_instance

/-- `Phone.validate`: `bool(re.match(r'^\d{10}$', number))`.  `\d`
matches any Unicode decimal digit (`isDecimalDigit`); `re.match` anchors at
the start; `$` matches at the end of the string **or just before a newline
at the end of the string**, so the pattern also accepts ten digits followed
by a single trailing `'\n'`. -/
def Phone.validate (number : String) : Bool :=
  let cs := number.data
  (cs.length == 10 && cs.all isDecimalDigit)
    || (cs.length == 11 && (cs.take 10).all isDecimalDigit && cs.getLast? == some '\n')

/-- A `Phone` field: holds the raw accepted string. -/
structure Phone where
  value : String
deriving DecidableEq, Repr

/-- The `Phone` constructor: validates, raising
`ValueError("Phone number must be exactly 10 digits.")` on failure. -/
def Phone.make (number : String) : Except String Phone :=
  if Phone.validate number then .ok ⟨number⟩
  else .error "Phone number must be exactly 10 digits."

/-- One alternative of `strptime`'s `%d` pattern
`(3[01]|[12]\d|0[1-9]|[1-9])`, tried in order; returns the day value and
the unconsumed input. -/
def parseDay : List Char → Option (Nat × List Char)
  | c1 :: c2 :: rest =>
    if c1 = '3' ∧ (c2 = '0' ∨ c2 = '1') then some (30 + digitVal c2, rest)
    else if (c1 = '1' ∨ c1 = '2') ∧ isPyDigit c2 then
      some (10 * digitVal c1 + digitVal c2, rest)
    else if c1 = '0' ∧ '1' ≤ c2 ∧ c2 ≤ '9' then some (digitVal c2, rest)
    else if '1' ≤ c1 ∧ c1 ≤ '9' then some (digitVal c1, c2 :: rest)
    else none
  | [c1] => if '1' ≤ c1 ∧ c1 ≤ '9' then some (digitVal c1, []) else none
  | [] => none

/-- `strptime`'s `%m` pattern `(1[0-2]|0[1-9]|[1-9])`. -/
def parseMonth : List Char → Option (Nat × List Char)
  | c1 :: c2 :: rest =>
    if c1 = '1' ∧ '0' ≤ c2 ∧ c2 ≤ '2' then some (10 + digitVal c2, rest)
    else if c1 = '0' ∧ '1' ≤ c2 ∧ c2 ≤ '9' then some (digitVal c2, rest)
    else if '1' ≤ c1 ∧ c1 ≤ '9' then some (digitVal c1, c2 :: rest)
    else none
  | [c1] => if '1' ≤ c1 ∧ c1 ≤ '9' then some (digitVal c1, []) else none
  | [] => none

/-- `strptime`'s `%Y` pattern `(\d\d\d\d)`: exactly four digits. -/
def parseYear4 : List Char → Option (Nat × List Char)
  | a :: b :: c :: d :: rest =>
    if isPyDigit a ∧ isPyDigit b ∧ isPyDigit c ∧ isPyDigit d then
      some (1000 * digitVal a + 100 * digitVal b + 10 * digitVal c + digitVal d, rest)
    else none
  | _ => none

/-- `datetime.strptime(s, "%d.%m.%Y").date()`: day, literal dot, month,
literal dot, four-digit year; the whole input must be consumed
("unconverted data remains" otherwise) and the resulting date must be a
valid `datetime.date` (`MINYEAR = 1`, day within the month). -/
def parseDMY (s : String) : Option Date :=
  match parseDay s.data with
  | none => none
  | some (d, r1) =>
    match r1 with
    | '.' :: r2 =>
      match parseMonth r2 with
      | none => none
      | some (m, r3) =>
        match r3 with
        | '.' :: r4 =>
          match parseYear4 r4 with
          | none => none
          | some (y, r5) =>
            match r5 with
            | [] => if 1 ≤ y ∧ d ≤ daysInMonth y m then some ⟨y, m, d⟩ else none
            | _ :: _ => none
        | _ => none
    | _ => none

/-- A `Birthday` field: stores the parsed `datetime.date`. -/
structure Birthday where
  value : Date
deriving DecidableEq, Repr

/-- The `Birthday` constructor: `validate` (a `strptime` attempt) then
parse; raises `ValueError("Invalid date format. Use DD.MM.YYYY")` when the
string does not parse. -/
def Birthday.make (value : String) : Except String Birthday :=
  match parseDMY value with
  | some d => .ok ⟨d⟩
  | none => .error "Invalid date format. Use DD.MM.YYYY"

/-! ### Contact records -/

/-- A contact record: a name, an ordered list of phones, an optional
birthday. -/
structure Record where
  name : String
  phones : List Phone
  birthday : Option Birthday
deriving DecidableEq, Repr

/-- `Record.__init__(name)`: empty phone list, no birthday. -/
def Record.init (name : String) : Record := ⟨name, [], none⟩

/-- `Record.add_phone`: validate-and-append; on validation failure the
caught `ValueError` text is returned and nothing is stored. -/
def Record.add_phone (r : Record) (number : String) : String × Record :=
  match Phone.make number with
  | .ok p =>
    ("Phone number '" ++ number ++ "' added for " ++ r.name ++ ".",
      { r with phones := r.phones ++ [p] })
  | .error e => (e, r)

/-- Remove the first phone whose value equals `number`
(`list.remove` semantics); `none` when no phone matches. -/
def removeFirstPhone : List Phone → String → Option (List Phone)
  | [], _ => none
  | p :: ps, number =>
    if p.value = number then some ps
    else (removeFirstPhone ps number).map (p :: ·)

/-- `Record.remove_phone`: linear scan by exact string match, remove first
match; informational message either way. -/
def Record.remove_phone (r : Record) (number : String) : String × Record :=
  match removeFirstPhone r.phones number with
  | some ps =>
    ("Phone number '" ++ number ++ "' removed for " ++ r.name ++ ".",
      { r with phones := ps })
  | none =>
    ("Phone number '" ++ number ++ "' not found for " ++ r.name ++ ".", r)

/-- How Python renders the `old_number` argument in f-strings: `None`
prints as `"None"`. -/
def pyShowArg : Option String → String
  | some s => s
  | none => "None"

/-- Split `ps` at the first phone whose value equals `old`
(`phone.value == old_number`; comparison with `None` is always false):
returns the prefix before the match, the match, and the suffix after. -/
def splitAtFirstMatch : List Phone → Option String → Option (List Phone × Phone × List Phone)
  | [], _ => none
  | p :: ps, old =>
    if some p.value = old then some ([], p, ps)
    else (splitAtFirstMatch ps old).map (fun x => (p :: x.1, x.2.1, x.2.2))

/-- `Record.edit_phone(old, new)`: find `old` by exact match; if found,
validate `new` and overwrite the matched phone's value in place (returning
the caught `ValueError` text on failure); otherwise a "not found" message.
`old` is an `Option` because `change_phone` passes `None` when the record
has no phones. -/
def Record.edit_phone (r : Record) (old : Option String) (new : String) : String × Record :=
  match splitAtFirstMatch r.phones old with
  | some (pre, _, post) =>
    match Phone.make new with
    | .ok _ =>
      ("Phone number '" ++ pyShowArg old ++ "' edited to '" ++ new ++ "' for "
          ++ r.name ++ ".",
        { r with phones := pre ++ Phone.mk new :: post })
    | .error e => (e, r)
  | none =>
    ("Phone number '" ++ pyShowArg old ++ "' not found for " ++ r.name ++ ".", r)

/-- `Record.find_phone`: first phone with the given value, if any. -/
def Record.find_phone (r : Record) (number : String) : Option Phone :=
  r.phones.find? (fun p => p.value == number)

/-- `Record.add_birthday`: construct a `Birthday` and store it; if the
constructor raises, the caught `ValueError` text is returned and the old
birthday (or its absence) is kept. -/
def Record.add_birthday (r : Record) (date_str : String) : String × Record :=
  match Birthday.make date_str with
  | .ok b =>
    ("Birthday '" ++ date_str ++ "' set for " ++ r.name ++ ".",
      { r with birthday := some b })
  | .error e => (e, r)

/-- `Record.show_birthday`: format the stored date with
`strftime("%d.%m.%Y")`, or a fixed indicator when absent. -/
def Record.show_birthday (r : Record) : String :=
  match r.birthday with
  | some b => date_to_string b.value
  | none => "No birthday set"

/-! ### Address book -/

/-- An `AddressBook`: an insertion-ordered mapping from name to record
(Python `dict` semantics, modelled as an association list). -/
structure AddressBook where
  data : List (String × Record)
deriving DecidableEq, Repr

/-- `dict` assignment `data[k] = v`: replace in place if the key exists,
else append. -/
def assocSet : List (String × Record) → String → Record → List (String × Record)
  | [], k, v => [(k, v)]
  | (k', v') :: rest, k, v =>
    if k' = k then (k, v) :: rest else (k', v') :: assocSet rest k v

/-- `dict.get(k, None)`. -/
def assocGet : List (String × Record) → String → Option Record
  | [], _ => none
  | (k', v') :: rest, k => if k' = k then some v' else assocGet rest k

/-- `dict` deletion `del data[k]` (key known present). -/
def assocDel : List (String × Record) → String → List (String × Record)
  | [], _ => []
  | (k', v') :: rest, k => if k' = k then rest else (k', v') :: assocDel rest k

/-- `AddressBook.add_record`: store under the record's own name. -/
def AddressBook.add_record (b : AddressBook) (r : Record) : AddressBook :=
  ⟨assocSet b.data r.name r⟩

/-- `AddressBook.find`: `data.get(name, None)`. -/
def AddressBook.find (b : AddressBook) (name : String) : Option Record :=
  assocGet b.data name

/-- `AddressBook.delete`: remove if present; descriptive message either
way. -/
def AddressBook.delete (b : AddressBook) (name : String) : String × AddressBook :=
  match assocGet b.data name with
  | some _ =>
    ("Record for " ++ name ++ " removed from the address book.", ⟨assocDel b.data name⟩)
  | none => ("No record found for " ++ name ++ ".", b)

/-! ### Upcoming birthdays -/

/-- `adjust_for_weekend`: Saturday (weekday 5) shifts +2 days, Sunday
(weekday 6) shifts +1 day, otherwise unchanged. -/
def adjust_for_weekend (birthday : Date) : Date :=
  if weekday birthday = 5 then addDays birthday 2
  else if weekday birthday = 6 then addDays birthday 1
  else birthday

/-- One element of the `get_upcoming_birthdays` result: the dict
`{"name": ..., "congratulation_date": ...}`. -/
structure UpEntry where
  name : String
  congratulation_date : String
deriving DecidableEq, Repr

/-- The year projection inside `get_upcoming_birthdays`:
`birthday.replace(year=today.year)`, re-projected onto `today.year + 1`
when strictly before `today`.  Either `replace` can raise (Feb 29 in a
non-leap target year), and the error propagates. -/
def projectBirthday (today : Date) (bd : Date) : Except String Date := do
  let bty ← replaceYear bd today.year
  if dateLt bty today then replaceYear bty (today.year + 1) else pure bty

/-- The record loop of `get_upcoming_birthdays`, in book order; an
exception from any record's projection aborts the whole call. -/
def upcomingGo (today : Date) (days : Nat) :
    List (String × Record) → Except String (List UpEntry)
  | [] => .ok []
  | (_, r) :: rest =>
    match r.birthday with
    | none => upcomingGo today days rest
    | some bd => do
      let bty ← projectBirthday today bd.value
      let tail ← upcomingGo today days rest
      if 0 ≤ dateDiff bty today ∧ dateDiff bty today ≤ (days : Int) then
        pure (⟨r.name, date_to_string (adjust_for_weekend bty)⟩ :: tail)
      else
        pure tail

/-- `AddressBook.get_upcoming_birthdays(days)`.  Python reads the reference
date from `date.today()`; the model takes it as the explicit argument
`today`. -/
def AddressBook.get_upcoming_birthdays (b : AddressBook) (days : Nat) (today : Date) :
    Except String (List UpEntry) :=
  upcomingGo today days b.data

/-! ### Command handlers

Each handler takes the raw argument string and the book and returns the
reply text together with the resulting book (Python mutates the book in
place).  The `input_error` wrapping is already applied: a `ValueError`
becomes its own text.  Unpacking `name, phone = args.split(maxsplit=1)`
raises `ValueError("not enough values to unpack (expected 2, got N)")`
when fewer than two parts result — a `ValueError`, not an `IndexError`, so
the wrapper returns that text, not "Insufficient arguments provided.". -/

/-- `add_contact(args, book)`. -/
def add_contact (args : String) (book : AddressBook) : String × AddressBook :=
  match splitMax1 args with
  | [name, phone] =>
    match book.find name with
    | some r =>
      let res := r.add_phone phone
      (res.1, book.add_record res.2)
    | none =>
      let res := (Record.init name).add_phone phone
      if strContainsSub res.1 "Phone number must be exactly 10 digits." then
        (res.1, book)
      else
        ("New contact '" ++ name ++ "' added with phone number '" ++ phone ++ "'.\n"
            ++ res.1,
          book.add_record res.2)
  | parts => (unpack2Msg parts.length, book)

/-- `change_phone(args, book)`: always targets the first stored phone
(`record.phones[0].value` when nonempty, `None` otherwise). -/
def change_phone (args : String) (book : AddressBook) : String × AddressBook :=
  match splitMax1 args with
  | [name, phone] =>
    match book.find name with
    | some r =>
      let old : Option String :=
        match r.phones with
        | [] => none
        | p :: _ => some p.value
      let res := r.edit_phone old phone
      (res.1, book.add_record res.2)
    | none => ("Record not found.", book)
  | parts => (unpack2Msg parts.length, book)

/-- The `add_birthday(args, book)` handler. -/
def add_birthday_cmd (args : String) (book : AddressBook) : String × AddressBook :=
  match splitMax1 args with
  | [name, birthday] =>
    match book.find name with
    | some r =>
      let res := r.add_birthday birthday
      (res.1, book.add_record res.2)
    | none => ("Record not found.", book)
  | parts => (unpack2Msg parts.length, book)

/-! ### Persistence

`save_data` pickles the whole book to a file and `load_data` unpickles it
(a missing file yields a fresh empty book).  Pickle's byte format is
external to the repository; per the specification the snapshot is modelled
as structured data — per contact its key, name, ordered phone strings and
optional birthday date — and `load` rebuilds the book from it. -/

/-- The serialized form of one record: name, phone strings in order,
optional birthday date. -/
structure RecordSnap where
  name : String
  phones : List String
  birthday : Option Date
deriving DecidableEq, Repr

/-- `save_data`: snapshot the whole book (pickle modelled as structured
serialization of every key/record pair, in book order). -/
def save_data (book : AddressBook) : List (String × RecordSnap) :=
  book.data.map (fun kv =>
    (kv.1, ⟨kv.2.name, kv.2.phones.map Phone.value, kv.2.birthday.map Birthday.value⟩))

/-- `load_data` on an existing snapshot: rebuild every record. -/
def load_data (snap : List (String × RecordSnap)) : AddressBook :=
  ⟨snap.map (fun kv =>
    (kv.1, ⟨kv.2.name, kv.2.phones.map Phone.mk, kv.2.birthday.map Birthday.mk⟩))⟩

/-! ## Verification -/

section Persistence

lemma phones_value_mk (ps : List Phone) :
    ps.map (fun p => Phone.mk p.value) = ps := by
  induction ps with
  | nil => rfl
  | cons p rest ih => simp [ih]

lemma birthday_value_mk (b : Option Birthday) :
    b.map (fun x => Birthday.mk x.value) = b := by
  cases b <;> rfl

/-- Claim C6: loading the snapshot produced by saving an address book
reconstructs a book with exactly the same names and, per name, the same
ordered phone strings and the same optional birthday date; indeed the
reconstructed book is equal to the original. -/
theorem load_after_save (book : AddressBook) :
    load_data (save_data book) = book ∧
    (load_data (save_data book)).data.map Prod.fst = book.data.map Prod.fst ∧
    ∀ name, (load_data (save_data book)).find name = book.find name := by
  have h : load_data (save_data book) = book := by
    cases book with
    | mk data =>
      simp only [load_data, save_data, List.map_map, AddressBook.mk.injEq]
      induction data with
      | nil => rfl
      | cons kv rest ih =>
        simp only [List.map_cons, ih, List.cons.injEq, and_true]
        cases kv with
        | mk k r =>
          cases r with
          | mk n ps b =>
            simp [Function.comp_def, phones_value_mk, birthday_value_mk]
  exact ⟨h, by rw [h], fun name => by rw [h]⟩

end Persistence

section BirthdayAtomic

/-- Claim C10: `Record.add_birthday` is atomic: when the date string fails
`Birthday` validation the stored birthday (or its absence) is unchanged and
the validation message is returned; when it validates, the parsed date
replaces any previously set birthday and a confirmation is returned. -/
theorem add_birthday_atomic (r : Record) (s : String) :
    (parseDMY s = none →
      r.add_birthday s = ("Invalid date format. Use DD.MM.YYYY", r)) ∧
    (∀ d, parseDMY s = some d →
      r.add_birthday s =
        ("Birthday '" ++ s ++ "' set for " ++ r.name ++ ".",
          { r with birthday := some ⟨d⟩ })) := by
  constructor
  · intro h
    simp [Record.add_birthday, Birthday.make, h]
  · intro d h
    simp [Record.add_birthday, Birthday.make, h]

/-- Witness for C10 at concrete inputs: an invalid string leaves a record
(here one with a stored birthday) unchanged; a valid string overwrites the
stored birthday. -/
theorem add_birthday_atomic_witness :
    Record.add_birthday ⟨"A", [], some ⟨⟨2000, 1, 1⟩⟩⟩ "31.13.2020"
        = ("Invalid date format. Use DD.MM.YYYY", ⟨"A", [], some ⟨⟨2000, 1, 1⟩⟩⟩) ∧
    Record.add_birthday ⟨"A", [], some ⟨⟨2000, 1, 1⟩⟩⟩ "29.02.2020"
        = ("Birthday '29.02.2020' set for A.", ⟨"A", [], some ⟨⟨2020, 2, 29⟩⟩⟩) := by
  refine ⟨(add_birthday_atomic ⟨"A", [], some ⟨⟨2000, 1, 1⟩⟩⟩ "31.13.2020").1 (by rfl), ?_⟩
  exact (add_birthday_atomic ⟨"A", [], some ⟨⟨2000, 1, 1⟩⟩⟩ "29.02.2020").2 ⟨2020, 2, 29⟩ (by rfl)

end BirthdayAtomic

section Feb29

/-- Claim C4, refuted: the year projection is *not* defined for every stored
birthday.  For a record whose birthday is Feb 29 and a non-leap reference
year, `birthday.replace(year=today.year)` raises
`ValueError("day is out of range for month")`, so `get_upcoming_birthdays`
raises instead of producing a result. -/
theorem feb29_projection_raises :
    AddressBook.get_upcoming_birthdays
        ⟨[("Eve", ⟨"Eve", [], some ⟨⟨2020, 2, 29⟩⟩⟩)]⟩ 7 ⟨2025, 6, 10⟩
      = .error "day is out of range for month" := by
  rfl

end Feb29

section PhoneValidation

lemma eleven_decomp {l : List Char} (hlen : l.length = 11) (hlast : l.getLast? = some '\n') :
    l = l.take 10 ++ ['\n'] := by
  have h1 : l ≠ [] := by intro h; rw [h] at hlen; simp at hlen
  have h2 : l.dropLast ++ [l.getLast h1] = l := List.dropLast_append_getLast h1
  have h3 : l.getLast h1 = '\n' := by
    rw [List.getLast?_eq_getLast l h1] at hlast
    exact Option.some.inj hlast
  have h4 : l.dropLast = l.take 10 := by
    rw [List.dropLast_eq_take, hlen]
  rw [h3, h4] at h2
  exact h2.symm

lemma isDecimalDigit_eq_true_iff (c : Char) :
    isDecimalDigit c = true ↔ IsNdDigit c := by
  simp [isDecimalDigit, IsNdDigit]

lemma validate_iff (s : String) :
    Phone.validate s = true ↔
      (s.data.length = 10 ∧ ∀ c ∈ s.data, IsNdDigit c) ∨
      (∃ t, s.data = t ++ ['\n'] ∧ t.length = 10 ∧ ∀ c ∈ t, IsNdDigit c) := by
  unfold Phone.validate
  simp only [Bool.or_eq_true, Bool.and_eq_true, beq_iff_eq, List.all_eq_true,
    isDecimalDigit_eq_true_iff]
  constructor
  · rintro (⟨hlen, hall⟩ | ⟨⟨hlen, hall⟩, hlast⟩)
    · exact Or.inl ⟨hlen, hall⟩
    · refine Or.inr ⟨s.data.take 10, eleven_decomp hlen hlast, ?_, hall⟩
      rw [List.length_take]; omega
  · rintro (⟨hlen, hall⟩ | ⟨t, ht, hlen, hall⟩)
    · exact Or.inl ⟨hlen, hall⟩
    · refine Or.inr ⟨⟨?_, ?_⟩, ?_⟩
      · rw [ht]; simp [hlen]
      · intro c hc
        rw [ht] at hc
        have h10 : (10 : Nat) = t.length := hlen.symm
        rw [h10, List.take_left] at hc
        exact hall c hc
      · rw [ht]
        exact List.getLast?_concat t

/-- Claim C2, amended: `Phone` construction succeeds exactly for strings of
ten decimal digit characters — Unicode category Nd, the acceptance set of
Python's `\d` on a `str` pattern — or ten such digits followed by a single
trailing newline (Python's `$` matches just before a final newline); every
other string fails with the validation error. -/
theorem phone_validation_characterization (s : String) :
    (Phone.make s = .ok ⟨s⟩ ↔
      (s.data.length = 10 ∧ ∀ c ∈ s.data, IsNdDigit c) ∨
      (∃ t, s.data = t ++ ['\n'] ∧ t.length = 10 ∧ ∀ c ∈ t, IsNdDigit c)) ∧
    (Phone.validate s = false →
      Phone.make s = .error "Phone number must be exactly 10 digits.") := by
  constructor
  · constructor
    · intro h
      by_cases hv : Phone.validate s = true
      · exact (validate_iff s).mp hv
      · simp [Phone.make, hv] at h
    · intro h
      simp [Phone.make, (validate_iff s).mpr h]
  · intro hv
    simp [Phone.make, hv]

/-- Witness for C2 at concrete inputs: ten ASCII digits are accepted, ten
Arabic-Indic digits (U+0660–U+0669, also matched by Python's `\d`) are
accepted, and a string failing validation gets the fixed error message. -/
theorem phone_validation_witness :
    Phone.make "0123456789" = .ok ⟨"0123456789"⟩ ∧
    Phone.make "٠١٢٣٤٥٦٧٨٩" = .ok ⟨"٠١٢٣٤٥٦٧٨٩"⟩ ∧
    Phone.make "12-34" = .error "Phone number must be exactly 10 digits." :=
  ⟨(phone_validation_characterization "0123456789").1.mpr (Or.inl (by decide)),
    (phone_validation_characterization "٠١٢٣٤٥٦٧٨٩").1.mpr (Or.inl (by decide)),
    (phone_validation_characterization "12-34").2 (by rfl)⟩

/-- Claim C2, counterexample: the claim says construction fails for every
string that is not exactly ten decimal digits, but a ten-digit string with
a trailing newline is accepted. -/
theorem phone_trailing_newline_ce :
    Phone.make "1234567890\n" = .ok ⟨"1234567890\n"⟩ ∧
    ("1234567890\n" : String).data.length ≠ 10 := by
  exact ⟨rfl, by decide⟩

end PhoneValidation

section InsufficientArgs

/-- Claim C3, amended: a two-token handler given fewer tokens than required
returns the text of the `ValueError` raised by tuple unpacking —
`"not enough values to unpack (expected 2, got N)"` — and leaves the book
unchanged; the fixed `"Insufficient arguments provided."` text answers only
`IndexError`, which these handlers never raise. -/
theorem insufficient_args_message (args : String) (book : AddressBook)
    (h : (splitMax1 args).length < 2) :
    add_contact args book = (unpack2Msg (splitMax1 args).length, book) ∧
    change_phone args book = (unpack2Msg (splitMax1 args).length, book) ∧
    add_birthday_cmd args book = (unpack2Msg (splitMax1 args).length, book) ∧
    unpack2Msg (splitMax1 args).length ≠ "Insufficient arguments provided." := by
  rcases hs : splitMax1 args with _ | ⟨a, _ | ⟨b, t⟩⟩
  · refine ⟨?_, ?_, ?_, ?_⟩
    · simp [add_contact, hs, unpack2Msg]
    · simp [change_phone, hs, unpack2Msg]
    · simp [add_birthday_cmd, hs, unpack2Msg]
    · rw [List.length_nil]; decide
  · refine ⟨?_, ?_, ?_, ?_⟩
    · simp [add_contact, hs, unpack2Msg]
    · simp [change_phone, hs, unpack2Msg]
    · simp [add_birthday_cmd, hs, unpack2Msg]
    · rw [List.length_singleton]; decide
  · rw [hs] at h
    simp at h
    omega

/-- Witness for C3 at a concrete input: a single-token argument string. -/
theorem insufficient_args_witness :
    add_contact "Alice" ⟨[]⟩
        = ("not enough values to unpack (expected 2, got 1)", ⟨[]⟩) ∧
    change_phone "Alice" ⟨[]⟩
        = ("not enough values to unpack (expected 2, got 1)", ⟨[]⟩) := by
  have h := insufficient_args_message "Alice" ⟨[]⟩ (by decide)
  exact ⟨h.1, h.2.1⟩

/-- Claim C3, counterexample: `add_contact` invoked with one token (fewer than
the two it needs) does not return `"Insufficient arguments provided."`; it
returns the unpacking `ValueError` text. -/
theorem insufficient_args_ce :
    (splitMax1 "Alice").length < 2 ∧
    add_contact "Alice" ⟨[]⟩
        = ("not enough values to unpack (expected 2, got 1)", ⟨[]⟩) ∧
    (add_contact "Alice" ⟨[]⟩).1 ≠ "Insufficient arguments provided." := by
  refine ⟨by decide, by rfl, by decide⟩

end InsufficientArgs

section ChangePhone

lemma assocSet_of_get {l : List (String × Record)} {k : String} {v : Record}
    (h : assocGet l k = some v) : assocSet l k v = l := by
  induction l with
  | nil => simp [assocGet] at h
  | cons kv rest ih =>
    cases kv with
    | mk k' v' =>
      by_cases hk : k' = k
      · subst hk
        simp [assocGet] at h
        simp [assocSet, h]
      · simp [assocGet, hk] at h
        simp [assocSet, hk, ih h]

/-- Claim C8: when `change_phone` finds the record and it has at least one
phone, the validated new phone replaces the phone at position 0 and every
other phone is untouched; when the record has no phones the edit targets
`None`, the handler returns the "not found" message, and book and record
are unchanged. -/
theorem change_phone_first_position (args : String) (book : AddressBook)
    (name phone : String) (r : Record)
    (hs : splitMax1 args = [name, phone])
    (hf : book.find name = some r) (hn : r.name = name) :
    (∀ p rest, r.phones = p :: rest → Phone.validate phone = true →
      change_phone args book =
        ("Phone number '" ++ p.value ++ "' edited to '" ++ phone ++ "' for "
            ++ name ++ ".",
          book.add_record { r with phones := Phone.mk phone :: rest })) ∧
    (r.phones = [] →
      change_phone args book =
        ("Phone number 'None' not found for " ++ name ++ ".", book)) := by
  constructor
  · intro p rest hp hv
    simp [change_phone, hs, hf, hp, Record.edit_phone, splitAtFirstMatch, Phone.make,
      hv, pyShowArg, hn]
  · intro hp
    have hbook : book.add_record r = book := by
      cases book with
      | mk data =>
        simp only [AddressBook.add_record, hn]
        rw [assocSet_of_get hf]
    simp [change_phone, hs, hf, hp, Record.edit_phone, splitAtFirstMatch, pyShowArg,
      hn, hbook]

/-- Witness for C8 at concrete books: a record with two phones gets its
first phone replaced; a record with no phones yields the "not found"
message and no change. -/
theorem change_phone_first_position_witness :
    change_phone "Bob 2222222222"
        ⟨[("Bob", ⟨"Bob", [⟨"1111111111"⟩, ⟨"3333333333"⟩], none⟩)]⟩
      = ("Phone number '1111111111' edited to '2222222222' for Bob.",
          ⟨[("Bob", ⟨"Bob", [⟨"2222222222"⟩, ⟨"3333333333"⟩], none⟩)]⟩) ∧
    change_phone "Carl 2222222222" ⟨[("Carl", ⟨"Carl", [], none⟩)]⟩
      = ("Phone number 'None' not found for Carl.",
          ⟨[("Carl", ⟨"Carl", [], none⟩)]⟩) := by
  constructor
  · exact (change_phone_first_position "Bob 2222222222"
      ⟨[("Bob", ⟨"Bob", [⟨"1111111111"⟩, ⟨"3333333333"⟩], none⟩)]⟩
      "Bob" "2222222222" ⟨"Bob", [⟨"1111111111"⟩, ⟨"3333333333"⟩], none⟩
      (by rfl) (by rfl) rfl).1 ⟨"1111111111"⟩ [⟨"3333333333"⟩] rfl (by rfl)
  · exact (change_phone_first_position "Carl 2222222222"
      ⟨[("Carl", ⟨"Carl", [], none⟩)]⟩
      "Carl" "2222222222" ⟨"Carl", [], none⟩
      (by rfl) (by rfl) rfl).2 rfl

end ChangePhone

section PhonesInvariant

/-- A phone-mutating operation on a record, with the arguments the Python
methods accept. -/
inductive PhoneOp where
  | add : String → PhoneOp
  | remove : String → PhoneOp
  | edit : Option String → String → PhoneOp
deriving DecidableEq, Repr

/-- Apply one phone operation, keeping only the resulting record. -/
def applyPhoneOp (r : Record) : PhoneOp → Record
  | .add n => (r.add_phone n).2
  | .remove n => (r.remove_phone n).2
  | .edit o n => (r.edit_phone o n).2

/-- Apply a sequence of phone operations in order. -/
def applyPhoneOps (r : Record) (ops : List PhoneOp) : Record :=
  ops.foldl applyPhoneOp r

lemma removeFirstPhone_mem {ps : List Phone} {n : String} {qs : List Phone}
    (h : removeFirstPhone ps n = some qs) : ∀ p ∈ qs, p ∈ ps := by
  induction ps generalizing qs with
  | nil => simp [removeFirstPhone] at h
  | cons q ps ih =>
    by_cases hq : q.value = n
    · simp [removeFirstPhone, hq] at h
      intro p hp
      rw [← h] at hp
      exact List.mem_cons_of_mem q hp
    · simp [removeFirstPhone, hq] at h
      obtain ⟨qs', hqs', rfl⟩ := h
      intro p hp
      rcases List.mem_cons.mp hp with hp | hp
      · exact hp ▸ List.mem_cons_self q ps
      · exact List.mem_cons_of_mem q (ih hqs' p hp)

lemma splitAtFirstMatch_eq {ps : List Phone} {o : Option String}
    {pre : List Phone} {q : Phone} {post : List Phone}
    (h : splitAtFirstMatch ps o = some (pre, q, post)) : ps = pre ++ q :: post := by
  induction ps generalizing pre with
  | nil => simp [splitAtFirstMatch] at h
  | cons p ps ih =>
    by_cases hp : some p.value = o
    · simp only [splitAtFirstMatch, if_pos hp, Option.some.injEq, Prod.mk.injEq] at h
      obtain ⟨h1, h2, h3⟩ := h
      subst h1; subst h2; subst h3
      rfl
    · simp only [splitAtFirstMatch, if_neg hp] at h
      cases hm : splitAtFirstMatch ps o with
      | none => rw [hm] at h; simp at h
      | some x =>
        obtain ⟨a, b, c⟩ := x
        rw [hm] at h
        simp only [Option.map_some', Option.some.injEq, Prod.mk.injEq] at h
        obtain ⟨h1, h2, h3⟩ := h
        subst h1; subst h2; subst h3
        have := ih hm
        rw [this]
        rfl

lemma applyPhoneOp_preserves {r : Record} (op : PhoneOp)
    (h : ∀ p ∈ r.phones, Phone.validate p.value = true) :
    ∀ p ∈ (applyPhoneOp r op).phones, Phone.validate p.value = true := by
  cases op with
  | add n =>
    simp only [applyPhoneOp, Record.add_phone]
    cases hm : Phone.make n with
    | ok ph =>
      have hv : Phone.validate n = true ∧ ph = ⟨n⟩ := by
        by_cases hvn : Phone.validate n = true
        · simp [Phone.make, hvn] at hm
          exact ⟨hvn, hm.symm⟩
        · simp [Phone.make, hvn] at hm
      intro p hp
      simp at hp
      rcases hp with hp | hp
      · exact h p hp
      · rw [hp, hv.2]
        exact hv.1
    | error e =>
      exact h
  | remove n =>
    simp only [applyPhoneOp, Record.remove_phone]
    cases hm : removeFirstPhone r.phones n with
    | some qs =>
      intro p hp
      exact h p (removeFirstPhone_mem hm p hp)
    | none =>
      exact h
  | edit o n =>
    simp only [applyPhoneOp, Record.edit_phone]
    cases hm : splitAtFirstMatch r.phones o with
    | some x =>
      obtain ⟨pre, q, post⟩ := x
      cases hv : Phone.make n with
      | ok ph =>
        have hvn : Phone.validate n = true := by
          by_cases hvn : Phone.validate n = true
          · exact hvn
          · simp [Phone.make, hvn] at hv
        intro p hp
        simp at hp
        have hsplit := splitAtFirstMatch_eq hm
        rcases hp with hp | hp | hp
        · exact h p (hsplit ▸ List.mem_append_left _ hp)
        · rw [hp]; exact hvn
        · exact h p (hsplit ▸ List.mem_append_right _ (List.mem_cons_of_mem q hp))
      | error e =>
        exact h
    | none =>
      exact h

/-- Claim C9: after any sequence of `add_phone`, `remove_phone` and
`edit_phone` operations applied to a freshly constructed record, every
stored phone satisfies the 10-digit validation rule. -/
theorem phones_invariant (name : String) (ops : List PhoneOp) :
    ∀ p ∈ (applyPhoneOps (Record.init name) ops).phones, Phone.validate p.value = true := by
  have general : ∀ (ops : List PhoneOp) (r : Record),
      (∀ p ∈ r.phones, Phone.validate p.value = true) →
      ∀ p ∈ (applyPhoneOps r ops).phones, Phone.validate p.value = true := by
    intro ops
    induction ops with
    | nil => intro r h; exact h
    | cons op rest ih =>
      intro r h
      exact ih (applyPhoneOp r op) (applyPhoneOp_preserves op h)
  exact general ops (Record.init name) (by simp [Record.init])

/-- Witness for C9 at a concrete operation sequence: after an accepted add,
a rejected add, an edit and a remove, the remaining phone still validates. -/
theorem phones_invariant_witness :
    Phone.validate
        (Phone.mk "2222222222").value = true :=
  phones_invariant "A"
    [.add "1234567890", .add "12x", .edit (some "1234567890") "2222222222",
      .remove "0000000000"]
    ⟨"2222222222"⟩ (by decide)

end PhonesInvariant

section AddContact

lemma listIsPrefixOf_exists {n h : List Char} (hp : listIsPrefixOf n h = true) :
    ∃ t, h = n ++ t := by
  induction n generalizing h with
  | nil => exact ⟨h, rfl⟩
  | cons a as ih =>
    cases h with
    | nil => simp [listIsPrefixOf] at hp
    | cons b bs =>
      simp only [listIsPrefixOf, Bool.and_eq_true, beq_iff_eq] at hp
      obtain ⟨t, ht⟩ := ih hp.2
      exact ⟨t, by rw [hp.1, ht]; rfl⟩

lemma listContainsSub_exists {h n : List Char} (hc : listContainsSub h n = true) :
    ∃ pre post, h = pre ++ n ++ post := by
  induction h with
  | nil =>
    rw [listContainsSub.eq_def] at hc
    by_cases hp : listIsPrefixOf n [] = true
    · obtain ⟨t, ht⟩ := listIsPrefixOf_exists hp
      exact ⟨[], t, ht⟩
    · rw [if_neg hp] at hc
      simp at hc
  | cons a t ih =>
    rw [listContainsSub.eq_def] at hc
    by_cases hp : listIsPrefixOf n (a :: t) = true
    · obtain ⟨u, hu⟩ := listIsPrefixOf_exists hp
      exact ⟨[], u, hu⟩
    · rw [if_neg hp] at hc
      obtain ⟨pre, post, hsub⟩ := ih hc
      exact ⟨a :: pre, post, by rw [hsub]; rfl⟩

lemma listIsPrefixOf_self (l : List Char) : listIsPrefixOf l l = true := by
  induction l with
  | nil => rfl
  | cons a as ih => simp [listIsPrefixOf, ih]

lemma listContainsSub_self (l : List Char) : listContainsSub l l = true := by
  rw [listContainsSub.eq_def, if_pos (listIsPrefixOf_self l)]

lemma count_le_of_contains {h n : List Char} (hc : listContainsSub h n = true) (c : Char) :
    n.count c ≤ h.count c := by
  obtain ⟨pre, post, rfl⟩ := listContainsSub_exists hc
  simp [List.count_append]
  omega

lemma isPyDigit_iff (c : Char) : isPyDigit c = true ↔ ('0' ≤ c ∧ c ≤ '9') := by
  simp [isPyDigit]

lemma validate_chars {s : String} (hv : Phone.validate s = true) :
    ∀ c ∈ s.data, IsNdDigit c ∨ c = '\n' := by
  rcases (validate_iff s).mp hv with ⟨_, hall⟩ | ⟨t, ht, _, hall⟩
  · exact fun c hc => Or.inl (hall c hc)
  · intro c hc
    rw [ht] at hc
    rcases List.mem_append.mp hc with hc | hc
    · exact Or.inl (hall c hc)
    · exact Or.inr (List.mem_singleton.mp hc)

lemma splitMax1_name_data {args name rest' : String}
    (hs : splitMax1 args = [name, rest']) :
    name.data = (args.data.dropWhile isPySpace).takeWhile (fun c => !isPySpace c) := by
  unfold splitMax1 at hs
  cases hcs : args.data.dropWhile isPySpace with
  | nil => rw [hcs] at hs; simp at hs
  | cons c cs =>
    rw [hcs] at hs
    simp only at hs
    cases hrest : ((c :: cs).dropWhile (fun c => !isPySpace c)).dropWhile isPySpace with
    | nil => rw [hrest] at hs; simp at hs
    | cons d ds =>
      rw [hrest] at hs
      simp only [List.cons.injEq] at hs
      rw [← hs.1]

lemma splitMax1_name_no_space {args name rest' : String}
    (hs : splitMax1 args = [name, rest']) :
    ∀ c ∈ name.data, isPySpace c = false := by
  intro c hc
  rw [splitMax1_name_data hs] at hc
  have := List.mem_takeWhile_imp hc
  simpa using this

/-- Claim C5: when `add_contact` is given a name not in the book and a phone
that fails validation, it returns only the validation message and the book
is unchanged (no record stored); when the phone validates, the new record
(with that single phone) is stored and the reply reports both the creation
and the phone-add outcome. -/
theorem add_contact_new_contact (args : String) (book : AddressBook)
    (name phone : String)
    (hs : splitMax1 args = [name, phone]) (hf : book.find name = none) :
    (Phone.validate phone = false →
      add_contact args book = ("Phone number must be exactly 10 digits.", book)) ∧
    (Phone.validate phone = true →
      add_contact args book =
        ("New contact '" ++ name ++ "' added with phone number '" ++ phone ++ "'.\n"
            ++ ("Phone number '" ++ phone ++ "' added for " ++ name ++ "."),
          book.add_record ⟨name, [⟨phone⟩], none⟩)) := by
  constructor
  · intro hv
    simp [add_contact, hs, hf, Record.init, Record.add_phone, Phone.make, hv,
      strContainsSub, listContainsSub_self]
  · intro hv
    have hphone0 : phone.data.count ' ' = 0 := by
      rw [List.count_eq_zero]
      intro hmem
      rcases validate_chars hv ' ' hmem with h | h
      · exact absurd h (by decide)
      · exact absurd h (by decide)
    have hname0 : name.data.count ' ' = 0 := by
      rw [List.count_eq_zero]
      intro hmem
      exact absurd (splitMax1_name_no_space hs ' ' hmem) (by decide)
    have hnotsub :
        strContainsSub ("Phone number '" ++ phone ++ "' added for " ++ name ++ ".")
          "Phone number must be exactly 10 digits." = false := by
      by_contra hc
      rw [Bool.not_eq_false] at hc
      unfold strContainsSub at hc
      have hle := count_le_of_contains hc ' '
      rw [String.data_append, String.data_append, String.data_append,
        String.data_append] at hle
      simp only [List.count_append] at hle
      rw [hphone0, hname0] at hle
      have c1 : ("Phone number '" : String).data.count ' ' = 2 := by decide
      have c2 : ("' added for " : String).data.count ' ' = 3 := by decide
      have c3 : ("." : String).data.count ' ' = 0 := by decide
      have c4 : ("Phone number must be exactly 10 digits." : String).data.count ' ' = 6 := by
        decide
      rw [c1, c2, c3, c4] at hle
      omega
    simp [add_contact, hs, hf, Record.init, Record.add_phone, Phone.make, hv, hnotsub]

/-- Witness for C5 at concrete inputs: a rejected phone stores nothing; an
accepted phone stores the record and reports both outcomes. -/
theorem add_contact_new_contact_witness :
    add_contact "Alice 12345" ⟨[]⟩
        = ("Phone number must be exactly 10 digits.", ⟨[]⟩) ∧
    add_contact "Alice 1234567890" ⟨[]⟩
        = ("New contact 'Alice' added with phone number '1234567890'.\n"
              ++ "Phone number '1234567890' added for Alice.",
            ⟨[("Alice", ⟨"Alice", [⟨"1234567890"⟩], none⟩)]⟩) := by
  constructor
  · exact (add_contact_new_contact "Alice 12345" ⟨[]⟩ "Alice" "12345"
      (by rfl) (by rfl)).1 (by rfl)
  · exact (add_contact_new_contact "Alice 1234567890" ⟨[]⟩ "Alice" "1234567890"
      (by rfl) (by rfl)).2 (by rfl)

end AddContact

section UpcomingBirthdays

lemma upcomingGo_mem {today : Date} {days : Nat} :
    ∀ {entries : List (String × Record)} {l : List UpEntry},
      upcomingGo today days entries = .ok l →
      ∀ {n : String} {r : Record}, (n, r) ∈ entries →
      ∀ {bd : Birthday}, r.birthday = some bd →
      ∀ {proj : Date}, projectBirthday today bd.value = .ok proj →
      0 ≤ dateDiff proj today → dateDiff proj today ≤ (days : Int) →
      UpEntry.mk r.name (date_to_string (adjust_for_weekend proj)) ∈ l := by
  intro entries
  induction entries with
  | nil =>
    intro l _ n r hmem
    simp at hmem
  | cons e rest ih =>
    intro l hrun n r hmem bd hbd proj hproj h0 h1
    obtain ⟨en, er⟩ := e
    rcases List.mem_cons.mp hmem with heq | hmem'
    · obtain ⟨rfl, rfl⟩ : n = en ∧ r = er := by
        have := heq
        simp only [Prod.mk.injEq] at this
        exact this
      simp only [upcomingGo, hbd, hproj] at hrun
      cases hrest : upcomingGo today days rest with
      | error e =>
        rw [hrest] at hrun
        simp [Bind.bind, Except.bind] at hrun
      | ok tail =>
        rw [hrest] at hrun
        simp only [Bind.bind, Except.bind] at hrun
        rw [if_pos ⟨h0, h1⟩] at hrun
        simp only [pure, Except.pure, Except.ok.injEq] at hrun
        rw [← hrun]
        exact List.mem_cons_self _ _
    · cases hbd' : er.birthday with
      | none =>
        simp only [upcomingGo, hbd'] at hrun
        exact ih hrun hmem' hbd hproj h0 h1
      | some bd' =>
        simp only [upcomingGo, hbd'] at hrun
        cases hproj' : projectBirthday today bd'.value with
        | error e =>
          rw [hproj'] at hrun
          simp [Bind.bind, Except.bind] at hrun
        | ok proj' =>
          rw [hproj'] at hrun
          cases hrest : upcomingGo today days rest with
          | error e =>
            rw [hrest] at hrun
            simp [Bind.bind, Except.bind] at hrun
          | ok tail =>
            rw [hrest] at hrun
            simp only [Bind.bind, Except.bind] at hrun
            have htail : UpEntry.mk r.name (date_to_string (adjust_for_weekend proj)) ∈ tail :=
              ih hrest hmem' hbd hproj h0 h1
            by_cases hcond : 0 ≤ dateDiff proj' today ∧ dateDiff proj' today ≤ (days : Int)
            · rw [if_pos hcond] at hrun
              simp only [pure, Except.pure, Except.ok.injEq] at hrun
              rw [← hrun]
              exact List.mem_cons_of_mem _ htail
            · rw [if_neg hcond] at hrun
              simp only [pure, Except.pure, Except.ok.injEq] at hrun
              rw [← hrun]
              exact htail

/-- Claim C1: whenever `get_upcoming_birthdays` succeeds, every record whose
projected birthday lies in the inclusive window `[0, days]` is reported
with a congratulation date equal to the projected date shifted +2 days on a
Saturday and +1 day on a Sunday (unchanged on weekdays); the shift happens
after the window check and is not re-checked, so (second conjunct, at a
concrete book) the reported date can land 2 days past the nominal window:
with window 5 and reference Monday 2024-06-10, the Saturday birthday
2024-06-15 (difference 5) is reported as 2024-06-17 (difference 7). -/
theorem upcoming_reports_weekend_shift (book : AddressBook) (days : Nat) (today : Date)
    (l : List UpEntry) (hrun : book.get_upcoming_birthdays days today = .ok l)
    (n : String) (r : Record) (hmem : (n, r) ∈ book.data)
    (bd : Birthday) (hbd : r.birthday = some bd)
    (proj : Date) (hproj : projectBirthday today bd.value = .ok proj)
    (h0 : 0 ≤ dateDiff proj today) (h1 : dateDiff proj today ≤ (days : Int)) :
    UpEntry.mk r.name
        (date_to_string
          (if weekday proj = 5 then addDays proj 2
           else if weekday proj = 6 then addDays proj 1
           else proj)) ∈ l ∧
    (AddressBook.get_upcoming_birthdays
          ⟨[("Alice", ⟨"Alice", [], some ⟨⟨1990, 6, 15⟩⟩⟩)]⟩ 5 ⟨2024, 6, 10⟩
        = .ok [⟨"Alice", "17.06.2024"⟩] ∧
      dateDiff ⟨2024, 6, 17⟩ ⟨2024, 6, 10⟩ = (5 : Int) + 2) := by
  refine ⟨?_, by exact ⟨rfl, by decide⟩⟩
  have hadj : adjust_for_weekend proj =
      (if weekday proj = 5 then addDays proj 2
       else if weekday proj = 6 then addDays proj 1
       else proj) := rfl
  rw [← hadj]
  exact upcomingGo_mem hrun hmem hbd hproj h0 h1

/-- Witness for C1 at the concrete one-contact book: applying the theorem
with reference Monday 2024-06-10 and window 5 places the shifted entry in
the computed output. -/
theorem upcoming_reports_weekend_shift_witness :
    UpEntry.mk "Alice"
        (date_to_string
          (if weekday ⟨2024, 6, 15⟩ = 5 then addDays ⟨2024, 6, 15⟩ 2
           else if weekday ⟨2024, 6, 15⟩ = 6 then addDays ⟨2024, 6, 15⟩ 1
           else ⟨2024, 6, 15⟩)) ∈ [UpEntry.mk "Alice" "17.06.2024"] ∧
    (AddressBook.get_upcoming_birthdays
          ⟨[("Alice", ⟨"Alice", [], some ⟨⟨1990, 6, 15⟩⟩⟩)]⟩ 5 ⟨2024, 6, 10⟩
        = .ok [⟨"Alice", "17.06.2024"⟩] ∧
      dateDiff ⟨2024, 6, 17⟩ ⟨2024, 6, 10⟩ = (5 : Int) + 2) :=
  upcoming_reports_weekend_shift
    ⟨[("Alice", ⟨"Alice", [], some ⟨⟨1990, 6, 15⟩⟩⟩)]⟩ 5 ⟨2024, 6, 10⟩
    [⟨"Alice", "17.06.2024"⟩] rfl
    "Alice" ⟨"Alice", [], some ⟨⟨1990, 6, 15⟩⟩⟩ (by simp)
    ⟨⟨1990, 6, 15⟩⟩ rfl ⟨2024, 6, 15⟩ rfl (by decide) (by decide)

end UpcomingBirthdays

section BirthdayRoundTrip

/-- The four-digit zero-padded year text: together with `pad2` this gives
the zero-padded `DD.MM.YYYY` input shape the round-trip claim quantifies
over. -/
def pad4 (n : Nat) : List Char :=
  [digitChar (n / 1000 % 10), digitChar (n / 100 % 10), digitChar (n / 10 % 10),
    digitChar (n % 10)]

/-- The zero-padded `DD.MM.YYYY` rendering of a date (the claim's input
pattern, stated independently of the code's formatter). -/
def specFormatDMY (d m y : Nat) : String :=
  String.mk (pad2 d ++ ('.' :: (pad2 m ++ ('.' :: pad4 y))))

lemma isPyDigit_digitChar {k : Nat} (h : k < 10) : isPyDigit (digitChar k) = true := by
  interval_cases k <;> rfl

lemma digitVal_digitChar {k : Nat} (h : k < 10) : digitVal (digitChar k) = k := by
  interval_cases k <;> rfl

lemma parseDay_pad2 {d : Nat} (h1 : 1 ≤ d) (h2 : d ≤ 31) (rest : List Char) :
    parseDay (pad2 d ++ rest) = some (d, rest) := by
  interval_cases d <;> rfl

lemma parseMonth_pad2 {m : Nat} (h1 : 1 ≤ m) (h2 : m ≤ 12) (rest : List Char) :
    parseMonth (pad2 m ++ rest) = some (m, rest) := by
  interval_cases m <;> rfl

lemma parseYear4_pad4 {y : Nat} (h : y ≤ 9999) (rest : List Char) :
    parseYear4 (pad4 y ++ rest) = some (y, rest) := by
  have ha : y / 1000 % 10 < 10 := Nat.mod_lt _ (by norm_num)
  have hb : y / 100 % 10 < 10 := Nat.mod_lt _ (by norm_num)
  have hc : y / 10 % 10 < 10 := Nat.mod_lt _ (by norm_num)
  have hd : y % 10 < 10 := Nat.mod_lt _ (by norm_num)
  simp only [pad4, List.cons_append, List.nil_append, parseYear4]
  rw [if_pos ⟨isPyDigit_digitChar ha, isPyDigit_digitChar hb,
    isPyDigit_digitChar hc, isPyDigit_digitChar hd⟩]
  rw [digitVal_digitChar ha, digitVal_digitChar hb, digitVal_digitChar hc,
    digitVal_digitChar hd]
  have : 1000 * (y / 1000 % 10) + 100 * (y / 100 % 10) + 10 * (y / 10 % 10) + y % 10
      = y := by omega
  rw [this]

lemma daysInMonth_le_31 (y m : Nat) : daysInMonth y m ≤ 31 := by
  unfold daysInMonth
  split_ifs <;> omega

lemma parseDMY_specFormat {y m d : Nat} (hv : ValidDate ⟨y, m, d⟩) :
    parseDMY (specFormatDMY d m y) = some ⟨y, m, d⟩ := by
  obtain ⟨hy1, hy2, hm1, hm2, hd1, hd3⟩ := hv
  have hd31 : d ≤ 31 := le_trans hd3 (daysInMonth_le_31 y m)
  have hdata : (specFormatDMY d m y).data
      = pad2 d ++ ('.' :: (pad2 m ++ ('.' :: pad4 y))) := rfl
  have hy4 : parseYear4 (pad4 y) = some (y, []) := by
    have := parseYear4_pad4 hy2 ([] : List Char)
    rwa [List.append_nil] at this
  unfold parseDMY
  rw [hdata, parseDay_pad2 hd1 hd31]
  simp only
  rw [parseMonth_pad2 hm1 hm2]
  simp only
  rw [hy4]
  simp only
  rw [if_pos ⟨hy1, hd3⟩]

lemma natDigitsAux_fuel : ∀ f1 f2 n, n < f1 → n < f2 →
    natDigitsAux f1 n = natDigitsAux f2 n := by
  intro f1
  induction f1 with
  | zero => intro f2 n h; omega
  | succ f ih =>
    intro f2 n h1 h2
    cases f2 with
    | zero => omega
    | succ g =>
      simp only [natDigitsAux]
      by_cases h10 : n < 10
      · simp [h10]
      · simp only [if_neg h10]
        have hdiv : n / 10 < n := Nat.div_lt_self (by omega) (by omega)
        rw [ih g (n / 10) (by omega) (by omega)]

lemma natDigits_unfold (n : Nat) :
    natDigits n = if n < 10 then [digitChar n]
      else natDigits (n / 10) ++ [digitChar (n % 10)] := by
  unfold natDigits
  simp only [natDigitsAux]
  by_cases h : n < 10
  · simp [h]
  · simp only [if_neg h]
    have hdiv : n / 10 < n := Nat.div_lt_self (by omega) (by omega)
    rw [natDigitsAux_fuel n (n / 10 + 1) (n / 10) (by omega) (by omega)]
    rfl

lemma natDigits_four {y : Nat} (h1 : 1000 ≤ y) (h2 : y ≤ 9999) :
    natDigits y = pad4 y := by
  have d1 : y / 10 / 10 = y / 100 := by
    rw [Nat.div_div_eq_div_mul]
  have d2 : y / 100 / 10 = y / 1000 := by
    rw [Nat.div_div_eq_div_mul]
  rw [natDigits_unfold y, if_neg (by omega),
    natDigits_unfold (y / 10), if_neg (by omega), d1,
    natDigits_unfold (y / 100), if_neg (by omega), d2,
    natDigits_unfold (y / 1000), if_pos (by omega)]
  have hm : y / 1000 % 10 = y / 1000 := Nat.mod_eq_of_lt (by omega)
  simp [pad4, hm]

lemma date_to_string_spec {y : Nat} (m d : Nat) (h1 : 1000 ≤ y) (h2 : y ≤ 9999) :
    date_to_string ⟨y, m, d⟩ = specFormatDMY d m y := by
  unfold date_to_string specFormatDMY
  rw [natDigits_four h1 h2]
  simp [List.cons_append]

/-- Claim C7, amended: for every valid calendar date with year at least
1000, `Birthday` construction on the zero-padded `DD.MM.YYYY` string
succeeds with exactly that date stored, and `show_birthday` formats it back
to the original string.  (Zero-padded years below 1000 still parse, but
glibc `strftime %Y` prints the year without zero padding, so the round
trip drops the leading zeros — see the counterexample.) -/
theorem birthday_roundtrip (y m d : Nat) (hv : ValidDate ⟨y, m, d⟩) (hy : 1000 ≤ y) :
    Birthday.make (specFormatDMY d m y) = .ok ⟨⟨y, m, d⟩⟩ ∧
    ∀ nm ph, Record.show_birthday ⟨nm, ph, some ⟨⟨y, m, d⟩⟩⟩ = specFormatDMY d m y := by
  constructor
  · unfold Birthday.make
    rw [parseDMY_specFormat hv]
  · intro nm ph
    unfold Record.show_birthday
    exact date_to_string_spec m d hy hv.2.1

/-- Witness for C7 at a concrete date: "15.06.1990" parses and formats
back to itself. -/
theorem birthday_roundtrip_witness :
    Birthday.make (specFormatDMY 15 6 1990) = .ok ⟨⟨1990, 6, 15⟩⟩ ∧
    Record.show_birthday ⟨"Alice", [], some ⟨⟨1990, 6, 15⟩⟩⟩ = specFormatDMY 15 6 1990 :=
  ⟨(birthday_roundtrip 1990 6 15 (by decide) (by norm_num)).1,
    (birthday_roundtrip 1990 6 15 (by decide) (by norm_num)).2 "Alice" []⟩

/-- Claim C7, counterexample: the zero-padded valid string "01.01.0123"
parses successfully, but formatting the stored date back yields
"01.01.123" — not the original string — because `%Y` is not zero padded. -/
theorem birthday_roundtrip_ce :
    Birthday.make "01.01.0123" = .ok ⟨⟨123, 1, 1⟩⟩ ∧
    Record.show_birthday ⟨"X", [], some ⟨⟨123, 1, 1⟩⟩⟩ = "01.01.123" ∧
    ("01.01.123" : String) ≠ "01.01.0123" := by
  exact ⟨rfl, rfl, by decide⟩

end BirthdayRoundTrip

end PickleBot
